import Mathlib

/-!
Verification of `GUID-search/extract_guid_with_macos.py`.

The script is a four-stage sequential pipeline: reboot the device, wait for
it to reconnect, collect a syslog archive into a temporary directory, and
extract a GUID from the archive via a filtered `log show` query.

External subprocess invocations are modelled by an oracle value of type
`CmdOutcome` (either a normal completion carrying exit code / stdout /
stderr, or a timeout); the filesystem state at the archive path is modelled
by an optional file tree.  All stage functions below are direct translations
of the Python functions of the same name; `print` calls are dropped as pure
output, and observable side effects that a claim speaks about (number of
presence checks, the settle sleep, temporary-directory lifecycle) are
recorded as extra result fields.
-/

/-- Marker substring constant `BLDB_FILENAME` of the script. -/
def BLDB_FILENAME : String := "BLDatabaseManager.sqlite"

/-- Python `str.isspace` characters stripped by `str.strip()` (ASCII range). -/
def isPySpace (c : Char) : Bool :=
  c = ' ' || c = '\t' || c = '\n' || c = '\r' || c = '\x0b' || c = '\x0c'

/-- Python `str.strip()`: drop leading and trailing whitespace. -/
def pyStrip (s : String) : String :=
  String.mk (((s.data.dropWhile isPySpace).reverse.dropWhile isPySpace).reverse)

/-- Result triple of `run_command`: `(result.returncode, result.stdout.strip(), result.stderr.strip())`. -/
structure CmdResult where
  exitCode : Int
  stdout : String
  stderr : String
deriving DecidableEq, Repr

/-- Oracle for one external subprocess invocation: either `subprocess.run`
returns normally (with raw exit code, stdout and stderr), or it raises
`subprocess.TimeoutExpired`. -/
inductive CmdOutcome where
  | completed (code : Int) (stdout : String) (stderr : String)
  | timedOut
deriving DecidableEq, Repr

/-- Model of `run_command` (lines 17-22): on normal completion return the code with
stripped stdout/stderr; on `TimeoutExpired` return `(124, "", "Timeout expired")`.
The `try/except` means the function returns in both cases — it never raises. -/
def run_command (o : CmdOutcome) : CmdResult :=
  match o with
  | .completed code out err => ⟨code, pyStrip out, pyStrip err⟩
  | .timedOut => ⟨124, "", "Timeout expired"⟩

/-- Model of `restart_device` (lines 25-34): dispatch the reboot command, succeed iff
its exit code is 0 (stderr is only printed, never inspected for the result). -/
def restart_device (o : CmdOutcome) : Bool :=
  (run_command o).exitCode == 0

/-- Observable outcome of `wait_for_device`: the returned boolean, how many
presence checks were run, and the settle sleep performed after a success
(`time.sleep(10)` on success, none otherwise). -/
structure WaitResult where
  ready : Bool
  checksMade : Nat
  settleDelay : Nat
deriving DecidableEq, Repr

/-- Loop of `wait_for_device` (lines 40-48).  `elapsed` is the value of
`time.time() - start` at the top of the iteration; iteration `n` runs the
presence check `checks n`, which itself takes `durs n` seconds, after which
the loop sleeps 3 seconds.  The loop condition `time.time() - start < timeout`
is checked before every presence check. -/
def wait_loop (timeout : Int) (checks : Nat → CmdOutcome) (durs : Nat → Nat)
    (n : Nat) (elapsed : Nat) : WaitResult :=
  if (elapsed : Int) < timeout then
    if (run_command (checks n)).exitCode == 0 then
      ⟨true, 1, 10⟩
    else
      let r := wait_loop timeout checks durs (n + 1) (elapsed + durs n + 3)
      ⟨r.ready, r.checksMade + 1, r.settleDelay⟩
  else
    ⟨false, 0, 0⟩
termination_by (timeout - elapsed).toNat
decreasing_by
  simp only [Int.lt_iff_add_one_le] at *
  omega

/-- Model of `wait_for_device` (lines 37-49): run the polling loop from elapsed time 0. -/
def wait_for_device (timeout : Int) (checks : Nat → CmdOutcome) (durs : Nat → Nat) : WaitResult :=
  wait_loop timeout checks durs 0 0

/-- Elapsed time (`time.time() - start`) at the top of iteration `k` of the
polling loop: each failed iteration adds the check's own duration plus the
3-second `time.sleep(3)`. -/
def elapsedAt (durs : Nat → Nat) : Nat → Nat
  | 0 => 0
  | k + 1 => elapsedAt durs k + durs k + 3

/-- Filesystem tree at a path: a regular file with a size, or a directory
with children. -/
inductive FsNode where
  | file (size : Nat)
  | dir (children : List FsNode)

mutual

/-- Recursive file-size sum `sum(f.stat().st_size for f in archive_path.rglob('*') if f.is_file())`:
recursive sum of the sizes of the regular files in a tree. -/
def totalSize : FsNode → Nat
  | .file s => s
  | .dir cs => totalSizeList cs

/-- Sum of `totalSize` over a list of children. -/
def totalSizeList : List FsNode → Nat
  | [] => 0
  | n :: ns => totalSize n + totalSizeList ns

end

/-- Model of `collect_syslog_archive` (lines 52-68): run the collection command, then
return `True` iff the archive path exists, is a directory, and the recursive
file-size sum reaches 10,000,000 bytes.  The command's result triple is bound
but never consulted for the return value. -/
def collect_syslog_archive (o : CmdOutcome) (archive : Option FsNode) : Bool :=
  let _ := run_command o
  match archive with
  | none => false
  | some (.file _) => false
  | some (.dir cs) => decide (10000000 ≤ totalSizeList cs)

/-- One hexadecimal digit `[0-9A-Fa-f]`, either case. -/
def isHexDigit (c : Char) : Bool :=
  (decide ('0' ≤ c) && decide (c ≤ '9')) ||
  (decide ('A' ≤ c) && decide (c ≤ 'F')) ||
  (decide ('a' ≤ c) && decide (c ≤ 'f'))

/-- Match `[0-9A-Fa-f]{n}` at the start of `l`: exactly `n` hex digits,
returning the matched digits and the remainder. -/
def takeHex : Nat → List Char → Option (List Char × List Char)
  | 0, l => some ([], l)
  | _ + 1, [] => none
  | n + 1, c :: cs =>
    if isHexDigit c then
      match takeHex n cs with
      | some (m, r) => some (c :: m, r)
      | none => none
    else none

/-- Match a literal `-` at the start of `l`, returning the remainder. -/
def takeDash : List Char → Option (List Char)
  | [] => none
  | c :: r => if c = '-' then some r else none

/-- Match `GUID_REGEX` (line 12: `[0-9A-Fa-f]{8}-[0-9A-Fa-f]{4}-[0-9A-Fa-f]{4}-[0-9A-Fa-f]{4}-[0-9A-Fa-f]{12}`)
anchored at the start of `l`, returning the matched characters.  The pattern
has no alternation and only exact counters, so matching at a position is
deterministic. -/
def matchGuidAt (l : List Char) : Option (List Char) := do
  let (a, r1) ← takeHex 8 l
  let r1d ← takeDash r1
  let (b, r2) ← takeHex 4 r1d
  let r2d ← takeDash r2
  let (c, r3) ← takeHex 4 r2d
  let r3d ← takeDash r3
  let (d, r4) ← takeHex 4 r3d
  let r4d ← takeDash r4
  let (e, _) ← takeHex 12 r4d
  pure (a ++ '-' :: b ++ '-' :: c ++ '-' :: d ++ '-' :: e)

/-- Model of `GUID_REGEX.search`: try the pattern at each position left to right and
return the leftmost match (Python `re.search` semantics for this pattern). -/
def guidSearch : List Char → Option (List Char)
  | [] => none
  | c :: cs =>
    match matchGuidAt (c :: cs) with
    | some m => some m
    | none => guidSearch cs



/-- Model of `match.group(0).upper()`: Python `str.upper` on the matched token,
character by character (ASCII for hex digits). -/
def upperChars (l : List Char) : List Char := l.map Char.toUpper

/-- Python `str.splitlines` on subprocess text output (universal-newlines
text mode): split at `\r\n`, `\n` or `\r`, with no trailing empty line. -/
def splitlinesAux : List Char → List Char → List String
  | [], acc => if acc.isEmpty then [] else [String.mk acc.reverse]
  | '\r' :: '\n' :: rest, acc => String.mk acc.reverse :: splitlinesAux rest []
  | '\n' :: rest, acc => String.mk acc.reverse :: splitlinesAux rest []
  | '\r' :: rest, acc => String.mk acc.reverse :: splitlinesAux rest []
  | c :: rest, acc => splitlinesAux rest (c :: acc)

/-- Model of `stdout.splitlines()`. -/
def splitlines (s : String) : List String := splitlinesAux s.data []


/-- Python substring containment `needle in haystack` on character lists. -/
def strContains : List Char → List Char → Bool
  | c :: t, needle => needle.isPrefixOf (c :: t) || strContains t needle
  | [], needle => needle.isEmpty

/-- Marker test `BLDB_FILENAME in line` of the extraction loop. -/
def isMarkerLine (line : String) : Bool := strContains line.data BLDB_FILENAME.data


/-- Body of the `for line in stdout.splitlines()` loop (lines 89-100): on a
marker line run `GUID_REGEX.search(line)`; on a match return the token
upper-cased, otherwise keep scanning; return `None` when the lines run out. -/
def scanLines : List String → Option String
  | [] => none
  | line :: rest =>
    if isMarkerLine line then
      match guidSearch line.data with
      | some m => some (String.mk (upperChars m))
      | none => scanLines rest
    else scanLines rest

/-- The identifier matcher of lines 93-97 in isolation: `GUID_REGEX.search(line)`
followed by `.group(0).upper()`; `none` models "not found". -/
def guidMatcher (line : String) : Option String :=
  (guidSearch line.data).map (fun m => String.mk (upperChars m))

/-- What one line contributes to the scan: an upper-cased identifier when the
line carries the marker and a token, `none` otherwise. -/
def lineGuid (line : String) : Option String :=
  if isMarkerLine line then guidMatcher line else none

/-- Model of `extract_guid_from_archive` (lines 71-100): run the filtered `log show`
query; on non-zero exit code return `None`, otherwise scan the stdout lines. -/
def extract_guid_from_archive (o : CmdOutcome) : Option String :=
  let r := run_command o
  if r.exitCode ≠ 0 then none
  else scanLines (splitlines r.stdout)

/-- The four pipeline stages of `main`. -/
inductive Stage where
  | reboot
  | wait
  | collect
  | extract
deriving DecidableEq, Repr

/-- Oracle for one whole run: the outcomes of the four kinds of external
commands and the filesystem state at the archive path after collection. -/
structure Env where
  restartCmd : CmdOutcome
  checks : Nat → CmdOutcome
  durs : Nat → Nat
  collectCmd : CmdOutcome
  archiveFs : Option FsNode
  logShowCmd : CmdOutcome

/-- Observable outcome of `main`: the `sys.exit` code, the stages that were
invoked in order, the printed GUID, and whether the `tempfile.TemporaryDirectory`
scope was entered (`tmpCreated`) and its storage removed on scope exit
(`tmpRemoved`). -/
structure RunResult where
  exitCode : Nat
  stages : List Stage
  printedGuid : Option String
  tmpCreated : Bool
  tmpRemoved : Bool
deriving DecidableEq, Repr

/-- Model of `main` (lines 103-129).  Each failing stage short-circuits via
`sys.exit(1)`.  The `with tempfile.TemporaryDirectory()` block spans the
collect and extract stages; `sys.exit` raises `SystemExit` through the
`with`, so the context manager removes the directory on every exit path
out of the block — `tmpRemoved` is set accordingly on each path.  The final
`if guid:` is Python truthiness: `None` and `""` both fail it. -/
def mainFn (e : Env) : RunResult :=
  if ¬ restart_device e.restartCmd then
    ⟨1, [.reboot], none, false, false⟩
  else if ¬ (wait_for_device 180 e.checks e.durs).ready then
    ⟨1, [.reboot, .wait], none, false, false⟩
  else if ¬ collect_syslog_archive e.collectCmd e.archiveFs then
    ⟨1, [.reboot, .wait, .collect], none, true, true⟩
  else
    match extract_guid_from_archive e.logShowCmd with
    | some g =>
      if g = "" then ⟨1, [.reboot, .wait, .collect, .extract], none, true, true⟩
      else ⟨0, [.reboot, .wait, .collect, .extract], some g, true, true⟩
    | none => ⟨1, [.reboot, .wait, .collect, .extract], none, true, true⟩

/-- Spec-side identifier grammar, written from the spec's words: a token of
the exact form `\h{8}-\h{4}-\h{4}-\h{4}-\h{12}` — five hexadecimal groups of
lengths 8, 4, 4, 4, 12 separated by hyphens, case-insensitive. -/
def IsGuidToken (tok : List Char) : Prop :=
  ∃ a b c d e : List Char,
    tok = a ++ '-' :: b ++ '-' :: c ++ '-' :: d ++ '-' :: e ∧
    a.length = 8 ∧ b.length = 4 ∧ c.length = 4 ∧ d.length = 4 ∧ e.length = 12 ∧
    a.all isHexDigit ∧ b.all isHexDigit ∧ c.all isHexDigit ∧
    d.all isHexDigit ∧ e.all isHexDigit

/-- Spec-side: `s` contains a substring matching the identifier grammar. -/
def ContainsGuidToken (l : List Char) : Prop :=
  ∃ pre tok post : List Char, l = pre ++ tok ++ post ∧ IsGuidToken tok

/-- Two command outcomes that differ at most in the standard-error text they
produce: same completion kind, same exit code, same stdout. -/
def stderrOnlyDiff : CmdOutcome → CmdOutcome → Prop
  | .completed c out _, .completed c' out' _ => c = c' ∧ out = out'
  | .timedOut, .timedOut => True
  | _, _ => False

/-- All four stages succeed and the extractor returns an identifier. -/
def stagesOk (e : Env) : Prop :=
  restart_device e.restartCmd = true ∧
  (wait_for_device 180 e.checks e.durs).ready = true ∧
  collect_syslog_archive e.collectCmd e.archiveFs = true ∧
  ∃ g, extract_guid_from_archive e.logShowCmd = some g

/-- Environment in which the reboot dispatch fails (exit code 1) and every
other external command would time out. -/
def envRebootFails : Env :=
  ⟨.completed 1 "" "", fun _ => .timedOut, fun _ => 0, .timedOut, none, .timedOut⟩

/-! ### Correctness of the regex embedding -/

theorem takeHex_sound : ∀ (n : Nat) (l m r : List Char),
    takeHex n l = some (m, r) → l = m ++ r ∧ m.length = n ∧ m.all isHexDigit = true := by
  intro n
  induction n with
  | zero =>
    intro l m r h
    simp only [takeHex, Option.some.injEq, Prod.mk.injEq] at h
    obtain ⟨hm, hr⟩ := h
    subst hm; subst hr
    simp
  | succ n ih =>
    intro l m r h
    cases l with
    | nil => simp [takeHex] at h
    | cons c cs =>
      simp only [takeHex] at h
      by_cases hc : isHexDigit c
      · rw [if_pos hc] at h
        cases h' : takeHex n cs with
        | none => rw [h'] at h; cases h
        | some p =>
          obtain ⟨m', r'⟩ := p
          rw [h'] at h
          simp only [Option.some.injEq, Prod.mk.injEq] at h
          obtain ⟨hm, hr⟩ := h
          obtain ⟨h1, h2, h3⟩ := ih cs m' r' h'
          subst hm; subst hr; subst h1
          simp [h2, hc, h3]
      · rw [if_neg hc] at h; cases h

theorem takeHex_complete : ∀ (m r : List Char), m.all isHexDigit = true →
    takeHex m.length (m ++ r) = some (m, r) := by
  intro m
  induction m with
  | nil => intro r _; simp [takeHex]
  | cons c cs ih =>
    intro r hall
    simp only [List.all_cons, Bool.and_eq_true] at hall
    simp [takeHex, hall.1, ih r hall.2]

theorem takeDash_sound : ∀ (l r : List Char), takeDash l = some r → l = '-' :: r := by
  intro l r h
  cases l with
  | nil => cases h
  | cons c cs =>
    simp only [takeDash] at h
    by_cases hc : c = '-'
    · rw [if_pos hc] at h
      simp only [Option.some.injEq] at h
      subst hc; subst h; rfl
    · rw [if_neg hc] at h; cases h

theorem matchGuidAt_sound (l m : List Char) (h : matchGuidAt l = some m) :
    IsGuidToken m ∧ ∃ rest, l = m ++ rest := by
  simp only [matchGuidAt, Option.bind_eq_bind, Option.bind_eq_some, Option.pure_def,
    Option.some.injEq] at h
  obtain ⟨⟨a, r1⟩, h8, h⟩ := h
  obtain ⟨r1d, hd1, h⟩ := h
  obtain ⟨⟨b, r2⟩, h4b, h⟩ := h
  obtain ⟨r2d, hd2, h⟩ := h
  obtain ⟨⟨c, r3⟩, h4c, h⟩ := h
  obtain ⟨r3d, hd3, h⟩ := h
  obtain ⟨⟨d, r4⟩, h4d, h⟩ := h
  obtain ⟨r4d, hd4, h⟩ := h
  obtain ⟨⟨e, r5⟩, h12, hm⟩ := h
  obtain ⟨hl, ha, haa⟩ := takeHex_sound _ _ _ _ h8
  obtain ⟨hr1, hb, hbb⟩ := takeHex_sound _ _ _ _ h4b
  obtain ⟨hr2, hc, hcc⟩ := takeHex_sound _ _ _ _ h4c
  obtain ⟨hr3, hd, hdd⟩ := takeHex_sound _ _ _ _ h4d
  obtain ⟨hr4, he, hee⟩ := takeHex_sound _ _ _ _ h12
  have hd1' := takeDash_sound _ _ hd1
  have hd2' := takeDash_sound _ _ hd2
  have hd3' := takeDash_sound _ _ hd3
  have hd4' := takeDash_sound _ _ hd4
  constructor
  · exact ⟨a, b, c, d, e, hm.symm, ha, hb, hc, hd, he, haa, hbb, hcc, hdd, hee⟩
  · refine ⟨r5, ?_⟩
    subst hl hd1' hr1 hd2' hr2 hd3' hr3 hd4' hr4
    rw [← hm]
    simp [List.append_assoc]

theorem matchGuidAt_complete (tok rest : List Char) (h : IsGuidToken tok) :
    matchGuidAt (tok ++ rest) = some tok := by
  obtain ⟨a, b, c, d, e, htok, ha, hb, hc, hd, he, haa, hbb, hcc, hdd, hee⟩ := h
  subst htok
  have t8 : takeHex 8 (a ++ ('-' :: (b ++ '-' :: (c ++ '-' :: (d ++ '-' :: (e ++ rest)))))) =
      some (a, '-' :: (b ++ '-' :: (c ++ '-' :: (d ++ '-' :: (e ++ rest))))) := by
    rw [← ha]; exact takeHex_complete a _ haa
  have t4b : takeHex 4 (b ++ ('-' :: (c ++ '-' :: (d ++ '-' :: (e ++ rest))))) =
      some (b, '-' :: (c ++ '-' :: (d ++ '-' :: (e ++ rest)))) := by
    rw [← hb]; exact takeHex_complete b _ hbb
  have t4c : takeHex 4 (c ++ ('-' :: (d ++ '-' :: (e ++ rest)))) =
      some (c, '-' :: (d ++ '-' :: (e ++ rest))) := by
    rw [← hc]; exact takeHex_complete c _ hcc
  have t4d : takeHex 4 (d ++ ('-' :: (e ++ rest))) = some (d, '-' :: (e ++ rest)) := by
    rw [← hd]; exact takeHex_complete d _ hdd
  have t12 : takeHex 12 (e ++ rest) = some (e, rest) := by
    rw [← he]; exact takeHex_complete e _ hee
  have harg : (a ++ '-' :: b ++ '-' :: c ++ '-' :: d ++ '-' :: e) ++ rest =
      a ++ ('-' :: (b ++ '-' :: (c ++ '-' :: (d ++ '-' :: (e ++ rest))))) := by
    simp [List.append_assoc]
  rw [harg]
  simp [matchGuidAt, t8, t4b, t4c, t4d, t12, takeDash, List.append_assoc]

theorem IsGuidToken_ne_nil {tok : List Char} (h : IsGuidToken tok) : tok ≠ [] := by
  obtain ⟨a, b, c, d, e, htok, ha, _⟩ := h
  subst htok
  intro hnil
  rcases List.append_eq_nil.mp hnil with ⟨-, h2⟩
  cases h2

theorem guidSearch_sound : ∀ (l m : List Char), guidSearch l = some m →
    ∃ pre post, l = pre ++ m ++ post ∧ IsGuidToken m := by
  intro l
  induction l with
  | nil => intro m h; cases h
  | cons c cs ih =>
    intro m h
    simp only [guidSearch] at h
    cases hm : matchGuidAt (c :: cs) with
    | some m' =>
      rw [hm] at h
      simp only [Option.some.injEq] at h
      subst h
      obtain ⟨htok, rest, hrest⟩ := matchGuidAt_sound _ _ hm
      exact ⟨[], rest, by simpa using hrest, htok⟩
    | none =>
      rw [hm] at h
      obtain ⟨pre, post, heq, htok⟩ := ih m h
      exact ⟨c :: pre, post, by simp [heq], htok⟩

theorem guidSearch_complete : ∀ (pre l : List Char),
    (∃ tok post, l = pre ++ tok ++ post ∧ IsGuidToken tok) →
    ∃ m, guidSearch l = some m := by
  intro pre
  induction pre with
  | nil =>
    intro l h
    obtain ⟨tok, post, heq, htok⟩ := h
    simp only [List.nil_append] at heq
    have hne := IsGuidToken_ne_nil htok
    cases tok with
    | nil => exact absurd rfl hne
    | cons t ts =>
      have hmatch : matchGuidAt l = some (t :: ts) := by
        rw [heq]; exact matchGuidAt_complete _ _ htok
      cases hl : l with
      | nil => rw [hl] at heq; cases heq
      | cons x xs =>
        refine ⟨t :: ts, ?_⟩
        rw [← hl]
        cases l with
        | nil => cases hl
        | cons y ys => simp [guidSearch, hmatch]
  | cons p pre' ih =>
    intro l h
    obtain ⟨tok, post, heq, htok⟩ := h
    subst heq
    simp only [List.cons_append]
    cases hm : matchGuidAt (p :: (pre' ++ tok ++ post)) with
    | some m =>
      rw [List.append_assoc] at hm
      exact ⟨m, by simp [guidSearch, hm]⟩
    | none =>
      obtain ⟨m, hm'⟩ := ih (pre' ++ tok ++ post) ⟨tok, post, rfl, htok⟩
      rw [List.append_assoc] at hm hm'
      exact ⟨m, by simp [guidSearch, hm, hm']⟩

/-! ### Characterization of the polling loop -/

theorem elapsedAt_le (durs : Nat → Nat) : ∀ {n k : Nat}, n ≤ k →
    elapsedAt durs n ≤ elapsedAt durs k := by
  intro n k h
  induction k with
  | zero => simp_all
  | succ k ih =>
    rcases Nat.lt_or_ge n (k + 1) with hlt | hge
    · have := ih (Nat.lt_succ_iff.mp hlt)
      simp only [elapsedAt]
      omega
    · have : n = k + 1 := Nat.le_antisymm h hge
      subst this
      exact Nat.le_refl _

theorem wait_loop_ready_iff (t : Int) (checks : Nat → CmdOutcome) (durs : Nat → Nat) :
    ∀ (fuel n : Nat), (t - (elapsedAt durs n : Int)).toNat ≤ fuel →
    ((wait_loop t checks durs n (elapsedAt durs n)).ready = true ↔
      ∃ k, n ≤ k ∧ (elapsedAt durs k : Int) < t ∧ (run_command (checks k)).exitCode = 0) := by
  intro fuel
  induction fuel with
  | zero =>
    intro n hf
    have hnlt : ¬ ((elapsedAt durs n : Int) < t) := by omega
    rw [wait_loop, if_neg hnlt]
    simp only [Bool.false_eq_true, false_iff, not_exists, not_and]
    intro k hk hlt
    have := elapsedAt_le durs hk
    omega
  | succ fuel ih =>
    intro n hf
    by_cases hlt : (elapsedAt durs n : Int) < t
    · rw [wait_loop, if_pos hlt]
      by_cases hok : (run_command (checks n)).exitCode = 0
      · have hbeq : ((run_command (checks n)).exitCode == 0) = true := by
          simp [hok]
        rw [if_pos hbeq]
        simp only [true_iff]
        exact ⟨n, Nat.le_refl n, hlt, hok⟩
      · have hbeq : ¬ (((run_command (checks n)).exitCode == 0) = true) := by
          simp [hok]
        rw [if_neg hbeq]
        have he : elapsedAt durs n + durs n + 3 = elapsedAt durs (n + 1) := rfl
        have hstep : elapsedAt durs n + 3 ≤ elapsedAt durs (n + 1) := by
          simp only [elapsedAt]; omega
        have hfuel : (t - (elapsedAt durs (n + 1) : Int)).toNat ≤ fuel := by
          push_cast at hstep ⊢
          omega
        have := ih (n + 1) hfuel
        rw [he]
        simp only [this]
        constructor
        · rintro ⟨k, hk, hp⟩
          exact ⟨k, Nat.le_of_succ_le hk, hp⟩
        · rintro ⟨k, hk, hp⟩
          refine ⟨k, ?_, hp⟩
          rcases Nat.eq_or_lt_of_le hk with heq | hlt'
          · subst heq; exact absurd hp.2 hok
          · exact hlt'
    · rw [wait_loop, if_neg hlt]
      simp only [Bool.false_eq_true, false_iff, not_exists, not_and]
      intro k hk hlt'
      have := elapsedAt_le durs hk
      omega

theorem wait_for_device_ready_iff (t : Int) (checks : Nat → CmdOutcome) (durs : Nat → Nat) :
    (wait_for_device t checks durs).ready = true ↔
      ∃ k, (elapsedAt durs k : Int) < t ∧ (run_command (checks k)).exitCode = 0 := by
  have h := wait_loop_ready_iff t checks durs (t - (elapsedAt durs 0 : Int)).toNat 0
    (Nat.le_refl _)
  unfold wait_for_device
  show (wait_loop t checks durs 0 (elapsedAt durs 0)).ready = true ↔ _
  rw [h]
  constructor
  · rintro ⟨k, _, hp⟩; exact ⟨k, hp⟩
  · rintro ⟨k, hp⟩; exact ⟨k, Nat.zero_le k, hp⟩

theorem wait_loop_settle (t : Int) (checks : Nat → CmdOutcome) (durs : Nat → Nat) :
    ∀ (fuel n e : Nat), (t - (e : Int)).toNat ≤ fuel →
    (wait_loop t checks durs n e).settleDelay =
      (if (wait_loop t checks durs n e).ready = true then 10 else 0) := by
  intro fuel
  induction fuel with
  | zero =>
    intro n e hf
    have hnlt : ¬ ((e : Int) < t) := by omega
    rw [wait_loop, if_neg hnlt]
    simp
  | succ fuel ih =>
    intro n e hf
    by_cases hlt : (e : Int) < t
    · rw [wait_loop, if_pos hlt]
      by_cases hok : ((run_command (checks n)).exitCode == 0) = true
      · rw [if_pos hok]; simp
      · rw [if_neg hok]
        have hfuel : (t - ((e + durs n + 3 : Nat) : Int)).toNat ≤ fuel := by
          push_cast
          omega
        exact ih (n + 1) (e + durs n + 3) hfuel
    · rw [wait_loop, if_neg hlt]
      simp

theorem wait_for_device_settle (t : Int) (checks : Nat → CmdOutcome) (durs : Nat → Nat) :
    (wait_for_device t checks durs).settleDelay =
      (if (wait_for_device t checks durs).ready = true then 10 else 0) :=
  wait_loop_settle t checks durs (t - ((0 : Nat) : Int)).toNat 0 0 (Nat.le_refl _)

/-! ### Characterization of the line scan -/

theorem scanLines_cons (line : String) (rest : List String) :
    scanLines (line :: rest) =
      (match lineGuid line with
       | some g => some g
       | none => scanLines rest) := by
  simp only [scanLines, lineGuid, guidMatcher]
  by_cases hm : isMarkerLine line
  · rw [if_pos hm, if_pos hm]
    cases h : guidSearch line.data with
    | none => simp [h]
    | some m => simp [h]
  · rw [if_neg hm, if_neg hm]

theorem scanLines_some_iff : ∀ (ls : List String) (g : String),
    scanLines ls = some g ↔
      ∃ l1 line l2, ls = l1 ++ line :: l2 ∧ lineGuid line = some g ∧
        ∀ l ∈ l1, lineGuid l = none := by
  intro ls
  induction ls with
  | nil =>
    intro g
    constructor
    · intro h; cases h
    · rintro ⟨l1, line, l2, heq, -, -⟩
      cases l1 <;> cases heq
  | cons a as ih =>
    intro g
    rw [scanLines_cons]
    cases ha : lineGuid a with
    | some g' =>
      simp only [Option.some.injEq]
      constructor
      · intro h
        exact ⟨[], a, as, rfl, by rw [ha, h], by simp⟩
      · rintro ⟨l1, line, l2, heq, hg, hnone⟩
        cases l1 with
        | nil =>
          simp only [List.nil_append, List.cons.injEq] at heq
          rw [heq.1] at ha
          rw [ha] at hg
          exact (Option.some.injEq _ _).mp hg
        | cons b bs =>
          simp only [List.cons_append, List.cons.injEq] at heq
          have hb : lineGuid b = none := hnone b (by simp)
          rw [← heq.1] at hb
          rw [ha] at hb
          cases hb
    | none =>
      rw [ih g]
      constructor
      · rintro ⟨l1, line, l2, heq, hg, hnone⟩
        refine ⟨a :: l1, line, l2, by simp [heq], hg, ?_⟩
        intro l hl
        rcases List.mem_cons.mp hl with h | h
        · rw [h]; exact ha
        · exact hnone l h
      · rintro ⟨l1, line, l2, heq, hg, hnone⟩
        cases l1 with
        | nil =>
          simp only [List.nil_append, List.cons.injEq] at heq
          rw [heq.1] at ha
          rw [ha] at hg
          cases hg
        | cons b bs =>
          simp only [List.cons_append, List.cons.injEq] at heq
          refine ⟨bs, line, l2, heq.2, hg, ?_⟩
          intro l hl
          exact hnone l (by simp [hl])

theorem scanLines_none_iff : ∀ (ls : List String),
    scanLines ls = none ↔ ∀ l ∈ ls, lineGuid l = none := by
  intro ls
  induction ls with
  | nil => simp [scanLines]
  | cons a as ih =>
    rw [scanLines_cons]
    cases ha : lineGuid a with
    | some g' =>
      simp only []
      constructor
      · intro h; cases h
      · intro h
        have := h a (by simp)
        rw [ha] at this
        cases this
    | none =>
      rw [ih]
      constructor
      · intro h l hl
        rcases List.mem_cons.mp hl with h' | h'
        · rw [h']; exact ha
        · exact h l h'
      · intro h l hl
        exact h l (by simp [hl])

theorem lineGuid_some_ne_empty (line : String) (g : String)
    (h : lineGuid line = some g) : g ≠ "" := by
  simp only [lineGuid, guidMatcher] at h
  by_cases hm : isMarkerLine line
  · rw [if_pos hm] at h
    rw [Option.map_eq_some'] at h
    obtain ⟨m, hsearch, hup⟩ := h
    obtain ⟨pre, post, -, htok⟩ := guidSearch_sound _ _ hsearch
    have hmne : m ≠ [] := IsGuidToken_ne_nil htok
    intro hempty
    rw [← hup] at hempty
    have : upperChars m = [] := congrArg String.data hempty
    exact hmne (List.map_eq_nil_iff.mp this)
  · rw [if_neg hm] at h
    cases h

theorem scanLines_some_ne_empty (ls : List String) (g : String)
    (h : scanLines ls = some g) : g ≠ "" := by
  obtain ⟨l1, line, l2, -, hg, -⟩ := (scanLines_some_iff ls g).mp h
  exact lineGuid_some_ne_empty line g hg

theorem extract_some_iff (o : CmdOutcome) (g : String) :
    extract_guid_from_archive o = some g ↔
      (run_command o).exitCode = 0 ∧
        scanLines (splitlines (run_command o).stdout) = some g := by
  simp only [extract_guid_from_archive]
  by_cases hc : (run_command o).exitCode = 0
  · simp [hc]
  · simp [hc]

theorem extract_some_ne_empty (o : CmdOutcome) (g : String)
    (h : extract_guid_from_archive o = some g) : g ≠ "" := by
  obtain ⟨-, hscan⟩ := (extract_some_iff o g).mp h
  exact scanLines_some_ne_empty _ _ hscan

/-! ### Helper lemmas for the pipeline -/

theorem run_command_congr {o o' : CmdOutcome} (h : stderrOnlyDiff o o') :
    (run_command o).exitCode = (run_command o').exitCode ∧
    (run_command o).stdout = (run_command o').stdout := by
  cases o with
  | completed c out err =>
    cases o' with
    | completed c' out' err' =>
      obtain ⟨h1, h2⟩ := h
      subst h1; subst h2
      exact ⟨rfl, rfl⟩
    | timedOut => cases h
  | timedOut =>
    cases o' with
    | completed c' out' err' => cases h
    | timedOut => exact ⟨rfl, rfl⟩

theorem mainFn_exit_zero_iff (e : Env) : (mainFn e).exitCode = 0 ↔ stagesOk e := by
  by_cases h1 : restart_device e.restartCmd = true
  · by_cases h2 : (wait_for_device 180 e.checks e.durs).ready = true
    · by_cases h3 : collect_syslog_archive e.collectCmd e.archiveFs = true
      · cases hE : extract_guid_from_archive e.logShowCmd with
        | some g =>
          have hne : g ≠ "" := extract_some_ne_empty _ _ hE
          simp [mainFn, h1, h2, h3, hE, hne, stagesOk]
        | none =>
          simp [mainFn, h1, h2, h3, hE, stagesOk]
      · simp [mainFn, h1, h2, h3, stagesOk]
    · simp [mainFn, h1, h2, stagesOk]
  · simp [mainFn, h1, stagesOk]

theorem mainFn_exit_dichotomy (e : Env) :
    (mainFn e).exitCode = 0 ∨ (mainFn e).exitCode = 1 := by
  by_cases h1 : restart_device e.restartCmd = true
  · by_cases h2 : (wait_for_device 180 e.checks e.durs).ready = true
    · by_cases h3 : collect_syslog_archive e.collectCmd e.archiveFs = true
      · cases hE : extract_guid_from_archive e.logShowCmd with
        | some g =>
          by_cases hg : g = "" <;> simp [mainFn, h1, h2, h3, hE, hg]
        | none => simp [mainFn, h1, h2, h3, hE]
      · simp [mainFn, h1, h2, h3]
    · simp [mainFn, h1, h2]
  · simp [mainFn, h1]

/-! ### Claim theorems -/

/-- C6: a command timeout yields the distinguished non-zero exit status 124
with the same result shape (exit code, stdout, stderr) as a normal
completion; `run_command` is total, so a timeout never escapes as an
exception. -/
theorem c6_timeout_is_ordinary_failure :
    run_command CmdOutcome.timedOut = ⟨124, "", "Timeout expired"⟩ ∧
    (run_command CmdOutcome.timedOut).exitCode ≠ 0 := by
  exact ⟨rfl, by decide⟩

/-- C3: for every outcome of the external collection command, the archive
collector returns `true` iff the target path exists, is a directory, and the
recursive file-size sum is at least 10,000,000 bytes; the command outcome
(in particular its exit status) never influences the result. -/
theorem c3_collect_validates_by_size_only :
    ∀ (o o' : CmdOutcome) (a : Option FsNode),
      collect_syslog_archive o a = collect_syslog_archive o' a ∧
      (collect_syslog_archive o a = true ↔
        ∃ cs, a = some (FsNode.dir cs) ∧ 10000000 ≤ totalSizeList cs) := by
  intro o o' a
  constructor
  · cases a with
    | none => rfl
    | some n => cases n <;> rfl
  · cases a with
    | none => simp [collect_syslog_archive]
    | some n =>
      cases n with
      | file s => simp [collect_syslog_archive]
      | dir cs => simp [collect_syslog_archive]

/-- C9: called with a non-positive maximum wait duration, the reconnection
waiter performs zero presence checks and returns `false`, because the
deadline condition is tested before the first poll. -/
theorem c9_nonpositive_timeout_no_checks (t : Int) (checks : Nat → CmdOutcome)
    (durs : Nat → Nat) (h : t ≤ 0) :
    (wait_for_device t checks durs).checksMade = 0 ∧
    (wait_for_device t checks durs).ready = false := by
  have hnlt : ¬ (((0 : Nat) : Int) < t) := by push_cast; omega
  unfold wait_for_device
  rw [wait_loop, if_neg hnlt]
  exact ⟨rfl, rfl⟩

/-- Witness for C9 at the concrete duration 0. -/
theorem c9_witness :
    (0 : Int) ≤ 0 ∧
    ((wait_for_device 0 (fun _ => CmdOutcome.timedOut) (fun _ => 0)).checksMade = 0 ∧
      (wait_for_device 0 (fun _ => CmdOutcome.timedOut) (fun _ => 0)).ready = false) :=
  ⟨by decide, c9_nonpositive_timeout_no_checks 0 (fun _ => CmdOutcome.timedOut)
    (fun _ => 0) (by decide)⟩

/-- C4: the reconnection waiter returns `true` iff some presence check that
starts before the deadline exits with status 0 (`elapsedAt durs k` is the
elapsed time when check `k` starts; the inter-poll sleep is the constant 3
seconds built into `elapsedAt`), and the fixed 10-second settle delay is
imposed exactly when it returns `true`; if every check started before the
deadline fails or times out, it returns `false`, no matter how many there
were. -/
theorem c4_wait_ready_characterization (t : Int) (checks : Nat → CmdOutcome)
    (durs : Nat → Nat) :
    ((wait_for_device t checks durs).ready = true ↔
      ∃ k, (elapsedAt durs k : Int) < t ∧ (run_command (checks k)).exitCode = 0) ∧
    (wait_for_device t checks durs).settleDelay =
      (if (wait_for_device t checks durs).ready = true then 10 else 0) :=
  ⟨wait_for_device_ready_iff t checks durs, wait_for_device_settle t checks durs⟩

/-- C2: the process exits with code 0 iff every stage succeeds and the GUID
extractor returns an identifier, and with code 1 in every other case. -/
theorem c2_exit_codes (e : Env) :
    ((mainFn e).exitCode = 0 ↔ stagesOk e) ∧
    ((mainFn e).exitCode = 1 ↔ ¬ stagesOk e) := by
  have hz := mainFn_exit_zero_iff e
  refine ⟨hz, ?_⟩
  rcases mainFn_exit_dichotomy e with h | h
  · rw [h]
    constructor
    · intro h01; exact absurd h01 (by decide)
    · intro hns; exact absurd (hz.mp h) hns
  · rw [h]
    constructor
    · intro _ hok
      have h0 := hz.mpr hok
      rw [h] at h0
      exact absurd h0 (by decide)
    · intro _; rfl

/-- C8: the ephemeral archive directory is created exactly when the run
reaches the collection stage, and on every exit path of `mainFn` the
`TemporaryDirectory` scope removes it — no run leaves a residual archive
directory. -/
theorem c8_tempdir_never_left_behind (e : Env) :
    (mainFn e).tmpCreated = (mainFn e).tmpRemoved ∧
    ((mainFn e).tmpCreated = true ↔ Stage.collect ∈ (mainFn e).stages) := by
  by_cases h1 : restart_device e.restartCmd = true
  · by_cases h2 : (wait_for_device 180 e.checks e.durs).ready = true
    · by_cases h3 : collect_syslog_archive e.collectCmd e.archiveFs = true
      · cases hE : extract_guid_from_archive e.logShowCmd with
        | some g =>
          by_cases hg : g = "" <;> simp [mainFn, h1, h2, h3, hE, hg]
        | none => simp [mainFn, h1, h2, h3, hE]
      · simp [mainFn, h1, h2, h3]
    · simp [mainFn, h1, h2]
  · simp [mainFn, h1]

/-- C7: the pipeline runs its stages in the strict order Reboot, Wait,
Collect, Extract — the invoked-stage list is always a prefix of that order —
and after a stage fails no later stage runs; in particular a failed reboot
dispatch leaves only the reboot stage invoked and exits with code 1. -/
theorem c7_stage_order_and_short_circuit (e : Env) :
    (∃ rest, (mainFn e).stages ++ rest =
      [Stage.reboot, Stage.wait, Stage.collect, Stage.extract]) ∧
    (restart_device e.restartCmd = false →
      (mainFn e).stages = [Stage.reboot] ∧ (mainFn e).exitCode = 1 ∧
      Stage.wait ∉ (mainFn e).stages ∧ Stage.collect ∉ (mainFn e).stages ∧
      Stage.extract ∉ (mainFn e).stages) ∧
    (restart_device e.restartCmd = true →
      (wait_for_device 180 e.checks e.durs).ready = false →
      (mainFn e).stages = [Stage.reboot, Stage.wait]) ∧
    (restart_device e.restartCmd = true →
      (wait_for_device 180 e.checks e.durs).ready = true →
      collect_syslog_archive e.collectCmd e.archiveFs = false →
      (mainFn e).stages = [Stage.reboot, Stage.wait, Stage.collect]) := by
  by_cases h1 : restart_device e.restartCmd = true
  · by_cases h2 : (wait_for_device 180 e.checks e.durs).ready = true
    · by_cases h3 : collect_syslog_archive e.collectCmd e.archiveFs = true
      · cases hE : extract_guid_from_archive e.logShowCmd with
        | some g =>
          by_cases hg : g = "" <;>
            simp [mainFn, h1, h2, h3, hE, hg]
        | none =>
          simp [mainFn, h1, h2, h3, hE]
      · simp [mainFn, h1, h2, h3]
    · simp [mainFn, h1, h2]
  · simp [mainFn, h1]

/-- Witness for C7: a concrete run whose reboot dispatch fails. -/
theorem c7_witness :
    (mainFn envRebootFails).stages = [Stage.reboot] ∧
    (mainFn envRebootFails).exitCode = 1 ∧
    Stage.wait ∉ (mainFn envRebootFails).stages ∧
    Stage.collect ∉ (mainFn envRebootFails).stages ∧
    Stage.extract ∉ (mainFn envRebootFails).stages :=
  (c7_stage_order_and_short_circuit envRebootFails).2.1 (by decide)

/-- C10: every stage's returned value is unchanged when the underlying
command invocations differ only in their standard-error text — the reboot
trigger, waiter and collector depend only on exit statuses, and the GUID
extractor additionally only on standard output. -/
theorem c10_results_ignore_stderr :
    (∀ o o', stderrOnlyDiff o o' → restart_device o = restart_device o') ∧
    (∀ (t : Int) (checks checks' : Nat → CmdOutcome) (durs : Nat → Nat),
      (∀ n, stderrOnlyDiff (checks n) (checks' n)) →
      (wait_for_device t checks durs).ready = (wait_for_device t checks' durs).ready) ∧
    (∀ o o' a, stderrOnlyDiff o o' →
      collect_syslog_archive o a = collect_syslog_archive o' a) ∧
    (∀ o o', stderrOnlyDiff o o' →
      extract_guid_from_archive o = extract_guid_from_archive o') := by
  refine ⟨?_, ?_, ?_, ?_⟩
  · intro o o' h
    unfold restart_device
    rw [(run_command_congr h).1]
  · intro t checks checks' durs h
    rw [Bool.eq_iff_iff]
    rw [wait_for_device_ready_iff, wait_for_device_ready_iff]
    constructor
    · rintro ⟨k, hk, hok⟩
      exact ⟨k, hk, by rw [← (run_command_congr (h k)).1]; exact hok⟩
    · rintro ⟨k, hk, hok⟩
      exact ⟨k, hk, by rw [(run_command_congr (h k)).1]; exact hok⟩
  · intro o o' a _
    cases a with
    | none => rfl
    | some n => cases n <;> rfl
  · intro o o' h
    simp only [extract_guid_from_archive]
    rw [(run_command_congr h).1, (run_command_congr h).2]

/-- Witness for C10: concrete invocation pairs differing only in stderr. -/
theorem c10_witness :
    restart_device (CmdOutcome.completed 0 "out" "e1") =
      restart_device (CmdOutcome.completed 0 "out" "e2") ∧
    (wait_for_device 5 (fun _ => CmdOutcome.completed 0 "" "e1") (fun _ => 0)).ready =
      (wait_for_device 5 (fun _ => CmdOutcome.completed 0 "" "e2") (fun _ => 0)).ready ∧
    collect_syslog_archive (CmdOutcome.completed 1 "" "e1") none =
      collect_syslog_archive (CmdOutcome.completed 1 "" "e2") none ∧
    extract_guid_from_archive (CmdOutcome.completed 0 "x" "e1") =
      extract_guid_from_archive (CmdOutcome.completed 0 "x" "e2") :=
  ⟨c10_results_ignore_stderr.1 _ _ ⟨rfl, rfl⟩,
   c10_results_ignore_stderr.2.1 5 _ _ (fun _ => 0) (fun _ => ⟨rfl, rfl⟩),
   c10_results_ignore_stderr.2.2.1 _ _ none ⟨rfl, rfl⟩,
   c10_results_ignore_stderr.2.2.2 _ _ ⟨rfl, rfl⟩⟩

/-- C5: the identifier matcher (`GUID_REGEX.search` followed by `.upper()`):
if the text contains a substring of the exact 8-4-4-4-12 hexadecimal form, it
yields such a substring of the text normalized to upper case; if the text
contains no such substring, it yields nothing ("not found"). -/
theorem c5_matcher_correct (s : String) :
    (ContainsGuidToken s.data →
      ∃ tok pre post, s.data = pre ++ tok ++ post ∧ IsGuidToken tok ∧
        guidMatcher s = some (String.mk (upperChars tok))) ∧
    (¬ ContainsGuidToken s.data → guidMatcher s = none) := by
  constructor
  · intro h
    obtain ⟨pre, tok, post, heq, htok⟩ := h
    obtain ⟨m, hm⟩ := guidSearch_complete pre s.data ⟨tok, post, heq, htok⟩
    obtain ⟨pre', post', heq', htok'⟩ := guidSearch_sound _ _ hm
    exact ⟨m, pre', post', heq', htok', by simp [guidMatcher, hm]⟩
  · intro h
    cases hm : guidSearch s.data with
    | none => simp [guidMatcher, hm]
    | some m =>
      exfalso
      obtain ⟨pre, post, heq, htok⟩ := guidSearch_sound _ _ hm
      exact h ⟨pre, m, post, heq, htok⟩

/-- Witness for C5 at a concrete lower-case token. -/
theorem c5_witness :
    ∃ tok pre post,
      ("1234abcd-5678-90ef-abcd-1234567890ab" : String).data = pre ++ tok ++ post ∧
      IsGuidToken tok ∧
      guidMatcher "1234abcd-5678-90ef-abcd-1234567890ab" =
        some (String.mk (upperChars tok)) :=
  (c5_matcher_correct "1234abcd-5678-90ef-abcd-1234567890ab").1
    ⟨[], "1234abcd-5678-90ef-abcd-1234567890ab".data, [], by decide,
      "1234abcd".data, "5678".data, "90ef".data, "abcd".data, "1234567890ab".data,
      by decide, by decide, by decide, by decide, by decide, by decide,
      by decide, by decide, by decide, by decide, by decide⟩

/-- C1, counterexample: the claim says the extractor considers only the
first marker-containing line, returning "not found" when that line carries
no identifier token.  On this input the first line contains the marker but
no token, a later marker line does carry one, and the code returns that
identifier instead of "not found". -/
theorem c1_counterexample :
    (run_command (CmdOutcome.completed 0
      "found BLDatabaseManager.sqlite here\nok BLDatabaseManager.sqlite 1234ABCD-5678-90EF-ABCD-1234567890AB"
      "")).exitCode = 0 ∧
    (splitlines (run_command (CmdOutcome.completed 0
      "found BLDatabaseManager.sqlite here\nok BLDatabaseManager.sqlite 1234ABCD-5678-90EF-ABCD-1234567890AB"
      "")).stdout).head? = some "found BLDatabaseManager.sqlite here" ∧
    isMarkerLine "found BLDatabaseManager.sqlite here" = true ∧
    guidSearch ("found BLDatabaseManager.sqlite here" : String).data = none ∧
    extract_guid_from_archive (CmdOutcome.completed 0
      "found BLDatabaseManager.sqlite here\nok BLDatabaseManager.sqlite 1234ABCD-5678-90EF-ABCD-1234567890AB"
      "") = some "1234ABCD-5678-90EF-ABCD-1234567890AB" := by
  refine ⟨by decide, by decide, by decide, by decide, by decide⟩

/-- C1, amended: the extractor fails on a non-zero query exit code; otherwise
it scans the lines in order, skips lines without the marker and marker lines
without an identifier token, and returns the upper-cased token of the first
marker line that carries one; if no marker line carries a token the result is
"not found". -/
theorem c1_first_marker_line_with_token (o : CmdOutcome) (g : String) :
    extract_guid_from_archive o = some g ↔
      ((run_command o).exitCode = 0 ∧
        ∃ l1 line l2, splitlines (run_command o).stdout = l1 ++ line :: l2 ∧
          lineGuid line = some g ∧ ∀ l ∈ l1, lineGuid l = none) := by
  rw [extract_some_iff o g, scanLines_some_iff]
